import Mathlib

/-!
# Verification of `disectChartData` (thinkjrs.dev)

A shallow embedding of the array-windowing utility `disectChartData`
from the repository's code samples (`src/unnamed/part_000`), together
with proofs of its specified properties.

The JavaScript source is:

```
function disectChartData(labels, data, length) {
  const endLabelSliceIdx = labels.length
  const endDataSliceIdx = data.length
  const startLabelIdx = Math.max(0, endLabelSliceIdx - length)
  const startDataIdx = Math.max(0, endDataSliceIdx - length)
  return {
    labels: labels.slice(startLabelIdx, endLabelSliceIdx),
    data: data.slice(startDataIdx, endDataSliceIdx),
  }
}
```

Arrays are embedded as `List`, JavaScript integer-valued numbers as
`Int`.  `Array.prototype.slice` is embedded with its ECMAScript
semantics for integer arguments (negative indices count from the end,
indices are clamped into `[0, len]`, and a start past the end yields
an empty array).  `Math.max` on integers is `max` on `Int`.
-/

namespace ThinkjrsDev

/-- ECMAScript `Array.prototype.slice(start, stop)` for integer
arguments: a negative index is taken relative to the end of the array
and clamped below at `0`; a nonnegative index is clamped above at the
array length; the result is the elements from the resolved start
(inclusive) to the resolved stop (exclusive), empty when the resolved
start is not below the resolved stop.  The original array is not
modified. -/
def jsSlice (xs : List α) (start stop : Int) : List α :=
  let len : Int := xs.length
  let s : Int := if start < 0 then max (len + start) 0 else min start len
  let e : Int := if stop < 0 then max (len + stop) 0 else min stop len
  (xs.drop s.toNat).take (e - s).toNat

/-- `Math.max` restricted to integer arguments. -/
def mathMax (a b : Int) : Int := max a b

/-- The object `{ labels, data }` returned by `disectChartData`. -/
structure ChartData (α β : Type) where
  labels : List α
  data : List β
deriving DecidableEq, Repr

/-- Embedding of `disectChartData(labels, data, length)` from
`src/unnamed/part_000`: each array is sliced from
`Math.max(0, arr.length - length)` to `arr.length`. -/
def disectChartData (labels : List α) (data : List β) (length : Int) :
    ChartData α β :=
  let endLabelSliceIdx : Int := labels.length
  let endDataSliceIdx : Int := data.length
  let startLabelIdx := mathMax 0 (endLabelSliceIdx - length)
  let startDataIdx := mathMax 0 (endDataSliceIdx - length)
  { labels := jsSlice labels startLabelIdx endLabelSliceIdx
    data := jsSlice data startDataIdx endDataSliceIdx }

example :
    disectChartData ["testing", "array", "indexes"] [(10 : Int), 11, 12] 2
      = ⟨["array", "indexes"], [11, 12]⟩ := by decide

/-- Slicing a list from `max 0 (len - n)` to `len` (the call pattern of
`disectChartData`) drops the first `(len - n).toNat` elements. -/
theorem jsSlice_tail (xs : List α) (n : Int) :
    jsSlice xs (mathMax 0 ((xs.length : Int) - n)) (xs.length : Int)
      = xs.drop ((xs.length : Int) - n).toNat := by
  unfold jsSlice mathMax
  have hlen : (0 : Int) ≤ (xs.length : Int) := Int.natCast_nonneg _
  have hstart : ¬ (max (0 : Int) ((xs.length : Int) - n) < 0) := by omega
  have hstop : ¬ ((xs.length : Int) < 0) := by omega
  simp only [hstart, hstop, if_neg, if_false, min_self]
  rcases le_or_lt 0 n with hn | hn
  · have hs : min (max (0 : Int) ((xs.length : Int) - n)) (xs.length : Int)
        = max (0 : Int) ((xs.length : Int) - n) := by omega
    rw [hs]
    have h1 : (max (0 : Int) ((xs.length : Int) - n)).toNat
        = ((xs.length : Int) - n).toNat := by omega
    rw [h1]
    apply List.take_of_length_le
    simp only [List.length_drop]
    omega
  · have hs : min (max (0 : Int) ((xs.length : Int) - n)) (xs.length : Int)
        = (xs.length : Int) := by omega
    rw [hs]
    have h1 : ((xs.length : Int) - (xs.length : Int)).toNat = 0 := by omega
    have h2 : ((xs.length : Int)).toNat = xs.length := by omega
    rw [h1, h2, List.drop_length, List.take_zero]
    have h3 : xs.length ≤ ((xs.length : Int) - n).toNat := by omega
    rw [List.drop_eq_nil_of_le h3]

/-- Closed form for `disectChartData`: each output is the input with
its first `(len - length).toNat` elements dropped (equivalently, the
trailing `min (max length 0) len` elements). -/
theorem disectChartData_eq (labels : List α) (data : List β) (n : Int) :
    disectChartData labels data n
      = ⟨labels.drop ((labels.length : Int) - n).toNat,
         data.drop ((data.length : Int) - n).toNat⟩ := by
  unfold disectChartData
  simp only [jsSlice_tail]

/-! ## Store-level model

`Array.prototype.slice` reads its receiver and allocates a fresh array
for the result; the source function mutates nothing.  To state the
frame property we model the JavaScript heap regions that hold label
arrays and data arrays as explicit allocation lists addressed by
index, and run `disectChartData` on references into that store. -/

/-- A store of allocated arrays: the label arrays and the data arrays
live in the store, addressed by allocation index (a reference). -/
structure ArrayStore (α β : Type) where
  labelArrays : List (List α)
  dataArrays : List (List β)
deriving DecidableEq, Repr

/-- Allocate a fresh label array, returning the extended store and a
reference to the new array. -/
def ArrayStore.allocLabel (st : ArrayStore α β) (xs : List α) :
    ArrayStore α β × Nat :=
  (⟨st.labelArrays ++ [xs], st.dataArrays⟩, st.labelArrays.length)

/-- Allocate a fresh data array, returning the extended store and a
reference to the new array. -/
def ArrayStore.allocData (st : ArrayStore α β) (xs : List β) :
    ArrayStore α β × Nat :=
  (⟨st.labelArrays, st.dataArrays ++ [xs]⟩, st.dataArrays.length)

/-- Read the label array behind a reference. -/
def ArrayStore.getLabel (st : ArrayStore α β) (r : Nat) : List α :=
  st.labelArrays.getD r []

/-- Read the data array behind a reference. -/
def ArrayStore.getData (st : ArrayStore α β) (r : Nat) : List β :=
  st.dataArrays.getD r []

/-- `disectChartData` at the store level: the two inputs are
references to arrays held in the store; each `slice` call reads its
receiver and allocates a fresh array for its result.  Returns the
resulting store and references to the two result arrays. -/
def disectChartDataRef (st : ArrayStore α β) (lr dr : Nat) (n : Int) :
    ArrayStore α β × Nat × Nat :=
  let r := disectChartData (st.getLabel lr) (st.getData dr) n
  let p1 := st.allocLabel r.labels
  let p2 := p1.1.allocData r.data
  (p2.1, p1.2, p2.2)

/-- Applying the trailing window twice with the same `n` changes
nothing the second time. -/
theorem drop_window_idem (xs : List γ) (n : Int) :
    (xs.drop ((xs.length : Int) - n).toNat).drop
        ((((xs.drop ((xs.length : Int) - n).toNat).length : Int) - n).toNat)
      = xs.drop ((xs.length : Int) - n).toNat := by
  rcases le_or_lt 0 n with hn | hn
  · have h0 : ((((xs.drop ((xs.length : Int) - n).toNat).length : Int) - n)).toNat
        = 0 := by
      simp only [List.length_drop]
      omega
    rw [h0, List.drop_zero]
  · have h1 : xs.drop ((xs.length : Int) - n).toNat = [] :=
      List.drop_eq_nil_of_le (by omega)
    rw [h1]
    simp

/-! ## Claims -/

/-- C1: for every sequence `s` fed to both the labels and the
values/data argument and every integer `n` with `0 < n < s.length`,
each output of `disectChartData` has exactly `n` elements and equals
the last `n` elements of `s` in the original order. -/
theorem disect_interior_window (s : List α) (n : Int)
    (h1 : 0 < n) (h2 : n < (s.length : Int)) :
    ((disectChartData s s n).labels.length : Int) = n ∧
    (disectChartData s s n).labels = s.drop (s.length - n.toNat) ∧
    ((disectChartData s s n).data.length : Int) = n ∧
    (disectChartData s s n).data = s.drop (s.length - n.toNat) := by
  simp only [disectChartData_eq]
  have hc : ((s.length : Int) - n).toNat = s.length - n.toNat := by omega
  refine ⟨?_, by rw [hc], ?_, by rw [hc]⟩ <;>
    · simp only [List.length_drop]
      omega

/-- Witness for C1 at `s = ["a","b","c"]`, `n = 2`. -/
theorem disect_interior_window_witness :
    ((disectChartData ["a","b","c"] ["a","b","c"] (2 : Int)).labels.length : Int)
        = 2 ∧
    (disectChartData ["a","b","c"] ["a","b","c"] (2 : Int)).labels
        = ["a","b","c"].drop (["a","b","c"].length - (2 : Int).toNat) ∧
    ((disectChartData ["a","b","c"] ["a","b","c"] (2 : Int)).data.length : Int)
        = 2 ∧
    (disectChartData ["a","b","c"] ["a","b","c"] (2 : Int)).data
        = ["a","b","c"].drop (["a","b","c"].length - (2 : Int).toNat) :=
  disect_interior_window ["a","b","c"] 2 (by decide) (by decide)

/-- C2: whenever `n` is at least the length of an input sequence, the
corresponding output of `disectChartData` is that sequence unchanged
(the start index clamps at 0). -/
theorem disect_oversized_length (l : List α) (d : List β) (n : Int) :
    ((l.length : Int) ≤ n → (disectChartData l d n).labels = l) ∧
    ((d.length : Int) ≤ n → (disectChartData l d n).data = d) := by
  simp only [disectChartData_eq]
  constructor <;> intro h
  · have h0 : ((l.length : Int) - n).toNat = 0 := by omega
    rw [h0, List.drop_zero]
  · have h0 : ((d.length : Int) - n).toNat = 0 := by omega
    rw [h0, List.drop_zero]

/-- Witness for C2 at `l = ["a","b","c"]`, `d = [1,2]`, `n = 5`. -/
theorem disect_oversized_length_witness :
    (disectChartData ["a","b","c"] [(1 : Int), 2] (5 : Int)).labels
        = ["a","b","c"] ∧
    (disectChartData ["a","b","c"] [(1 : Int), 2] (5 : Int)).data
        = [(1 : Int), 2] :=
  ⟨(disect_oversized_length ["a","b","c"] [(1 : Int), 2] 5).1 (by decide),
   (disect_oversized_length ["a","b","c"] [(1 : Int), 2] 5).2 (by decide)⟩

/-- C3: for every pair of input sequences and every negative integer
`n`, both outputs of `disectChartData` are empty, and the call returns
normally rather than erroring (the embedding is a total function and
this theorem exhibits its value). -/
theorem disect_negative_length (l : List α) (d : List β) (n : Int)
    (h : n < 0) :
    (disectChartData l d n).labels = [] ∧
    (disectChartData l d n).data = [] := by
  simp only [disectChartData_eq]
  constructor <;>
    · apply List.drop_eq_nil_of_le
      omega

/-- Witness for C3 at `l = ["a"]`, `d = [1,2]`, `n = -3`. -/
theorem disect_negative_length_witness :
    (disectChartData ["a"] [(1 : Int), 2] (-3 : Int)).labels = [] ∧
    (disectChartData ["a"] [(1 : Int), 2] (-3 : Int)).data = [] :=
  disect_negative_length ["a"] [(1 : Int), 2] (-3) (by decide)

/-- C4: the two outputs are computed independently, each from its own
input's length: the labels output never depends on the data argument
and vice versa, and on the spec's mismatched-length scenario
(`labels = ["a","b","c"]`, `values = [1,2]`, `length = 5`) both inputs
come back whole, their differing lengths preserved. -/
theorem disect_independent_outputs (α β : Type) :
    (∀ (l : List α) (d1 d2 : List β) (n : Int),
        (disectChartData l d1 n).labels = (disectChartData l d2 n).labels) ∧
    (∀ (l1 l2 : List α) (d : List β) (n : Int),
        (disectChartData l1 d n).data = (disectChartData l2 d n).data) ∧
    disectChartData ["a","b","c"] [(1 : Int), 2] 5
      = ⟨["a","b","c"], [(1 : Int), 2]⟩ := by
  refine ⟨?_, ?_, by decide⟩
  · intro l d1 d2 n
    simp only [disectChartData_eq]
  · intro l1 l2 d n
    simp only [disectChartData_eq]

/-- C5: for every input sequence and every integer `n` (negative,
zero, interior, or oversized), the corresponding output of
`disectChartData` has exactly `min (max n 0) len` elements, `len`
being that input's own length. -/
theorem disect_output_length_closed_form (l : List α) (d : List β) (n : Int) :
    ((disectChartData l d n).labels.length : Int)
        = min (max n 0) (l.length : Int) ∧
    ((disectChartData l d n).data.length : Int)
        = min (max n 0) (d.length : Int) := by
  simp only [disectChartData_eq, List.length_drop]
  constructor <;> omega

/-- C6: each output of `disectChartData` is a contiguous suffix of its
corresponding input, in the original order. -/
theorem disect_outputs_are_suffixes (l : List α) (d : List β) (n : Int) :
    (disectChartData l d n).labels <:+ l ∧
    (disectChartData l d n).data <:+ d := by
  simp only [disectChartData_eq]
  exact ⟨List.drop_suffix _ _, List.drop_suffix _ _⟩

/-- C7: `disectChartData` is idempotent at a fixed window length:
feeding its two outputs back in with the same `n` reproduces them
exactly. -/
theorem disect_idempotent (l : List α) (d : List β) (n : Int) :
    disectChartData (disectChartData l d n).labels
        (disectChartData l d n).data n
      = disectChartData l d n := by
  simp only [disectChartData_eq]
  congr 1
  · exact drop_window_idem l n
  · exact drop_window_idem d n

/-- C8: with `n = 0` both outputs of `disectChartData` are empty,
whatever the inputs. -/
theorem disect_zero_length (l : List α) (d : List β) :
    (disectChartData l d 0).labels = [] ∧
    (disectChartData l d 0).data = [] := by
  simp only [disectChartData_eq]
  constructor <;>
    · apply List.drop_eq_nil_of_le
      omega

/-- C9: `disectChartData` is total over its documented domain: for all
input sequences (empty ones included) and every integer `n` it returns
the pair of (possibly empty) trailing windows given by this closed
form — no input makes it err.  (Every primitive the source uses,
`length`, `Math.max` and `slice`, is total in ECMAScript, so the
embedding is a total function; this theorem exhibits its value
everywhere.) -/
theorem disect_total_closed_form (l : List α) (d : List β) (n : Int) :
    disectChartData l d n
      = ⟨l.drop ((l.length : Int) - n).toNat,
         d.drop ((d.length : Int) - n).toNat⟩ :=
  disectChartData_eq l d n

/-- C10: `disectChartData` mutates nothing: at the store level every
previously allocated array is untouched (the old store is a prefix of
the new one), and the two results are freshly allocated arrays — their
references lie at the old allocation limits, so they are new copies of
the trailing portions, not mutations of the inputs. -/
theorem disect_no_mutation (st : ArrayStore α β) (lr dr : Nat) (n : Int) :
    (disectChartDataRef st lr dr n).1.labelArrays
        = st.labelArrays
            ++ [(disectChartData (st.getLabel lr) (st.getData dr) n).labels] ∧
    (disectChartDataRef st lr dr n).1.dataArrays
        = st.dataArrays
            ++ [(disectChartData (st.getLabel lr) (st.getData dr) n).data] ∧
    (disectChartDataRef st lr dr n).2.1 = st.labelArrays.length ∧
    (disectChartDataRef st lr dr n).2.2 = st.dataArrays.length :=
  ⟨rfl, rfl, rfl, rfl⟩

end ThinkjrsDev
